import Mathlib

/-!
Shallow embedding of the PurposeFinder repository (two Python source files,
src/PurposeFinder.py and src/app.py) and proofs about its trait-scoring and
domain-recommendation engine.

Modelling conventions:
* Python dicts keyed by strings become association lists (`List (String × _)`);
  `dict.get(k, d)` becomes `(lookupStr k l).getD d`.
* Likert ratings are integers (`ℤ`); `numpy.mean` over small integer ratings is
  exact in floating point (sums are at most 10, halving is exact), so trait
  scores are embedded as rationals (`ℚ`) with `np_mean vals = vals.sum / vals.length`.
* `sorted(..., key=lambda x: x[1], reverse=True)` is a stable descending sort
  on the score component; it is embedded as a stable descending insertion sort
  (`sortDesc`), which computes the same list as any stable descending sort.
* Python `str.lower()` on the ASCII strings of this repository is embedded as
  `lowerStr` (ASCII lowercasing).
* Truthiness tests (`if domains:`, `if values else`) become emptiness tests.
-/

namespace PurposeFinder

/-- Association-list lookup, modelling Python dict access on string keys. -/
def lookupStr {β : Type} (k : String) : List (String × β) → Option β
  | [] => none
  | p :: ps => if p.1 = k then some p.2 else lookupStr k ps

/-- `numpy.mean` of a list of (exactly representable) numbers: sum divided by length. -/
def np_mean (vals : List ℚ) : ℚ := vals.sum / vals.length

/-- ASCII lowercasing of one character, modelling Python `str.lower` per character. -/
def lowerChar (c : Char) : Char :=
  if 'A' ≤ c ∧ c ≤ 'Z' then Char.ofNat (c.toNat + 32) else c

/-- ASCII lowercasing of a string, modelling Python `str.lower` on the ASCII
strings appearing in this repository. -/
def lowerStr (s : String) : String := String.mk (s.data.map lowerChar)

/-- The question text of the first Agreeableness item of src/PurposeFinder.py
line 42; the apostrophe of the source text is built with `Char.ofNat 39`. -/
def agreeQ1 : String :=
  "I usually consider other people" ++ (Char.ofNat 39).toString ++ "s feelings."

/-- `BIG5_ITEMS` of src/PurposeFinder.py lines 31-47: the trait table, mapping
each of the five traits (in declared order) to its two question texts. -/
def BIG5_ITEMS : List (String × List String) :=
  [("Openness",
     ["I enjoy trying new things and new experiences.",
      "I prefer variety over routine."]),
   ("Conscientiousness",
     ["I pay attention to details and like to be organized.",
      "I finish tasks I start."]),
   ("Extraversion",
     ["I feel energized spending time with other people.",
      "I enjoy being the center of attention sometimes."]),
   ("Agreeableness",
     [agreeQ1,
      "I prefer cooperation over competition."]),
   ("Neuroticism",
     ["I sometimes feel anxious or stressed.",
      "I get upset easily by small things."])]

/-- `DIMENSION_TO_DOMAINS` of src/PurposeFinder.py lines 65-71. -/
def DIMENSION_TO_DOMAINS : List (String × List String) :=
  [("Openness",
     ["Creative pursuits (writing, design, arts)", "Research, learning, or travel"]),
   ("Conscientiousness",
     ["Project-based careers (engineering, operations, product)",
      "Entrepreneurship that requires discipline"]),
   ("Extraversion",
     ["Community-oriented roles (sales, teaching, public-facing)",
      "Events, hospitality, or advocacy"]),
   ("Agreeableness",
     ["Helping professions (counseling, social work, healthcare)",
      "Team-based roles and volunteering"]),
   ("Neuroticism",
     ["Care-oriented roles with predictable structure",
      "Focus on wellbeing, therapy, or coaching"])]

/-- `VALUES` of src/PurposeFinder.py lines 60-62. -/
def VALUES : List String :=
  ["Creativity", "Security", "Helping others", "Achievement", "Freedom",
   "Family", "Adventure", "Learning", "Wealth", "Stability"]

/-- An Answer mapping: question identifier to integer rating. -/
abbrev Answers := List (String × ℤ)

/-- `responses.get(q, 3)`: the rating of question `q`, defaulting to 3. -/
def getRating (responses : Answers) (q : String) : ℤ :=
  (lookupStr q responses).getD 3

/-- `score_likert_responses` of src/PurposeFinder.py lines 77-84: for each trait
of `BIG5_ITEMS`, the `numpy.mean` of its question ratings, each missing
question substituted by 3. -/
def score_likert_responses (responses : Answers) : List (String × ℚ) :=
  BIG5_ITEMS.map fun ti =>
    (ti.1, np_mean (ti.2.map fun q => ((getRating responses q : ℤ) : ℚ)))

/-- `values_summary` of src/PurposeFinder.py lines 95-98. -/
def values_summary (chosen_values : List String) : String :=
  if chosen_values = [] then "No strong values selected."
  else String.intercalate ", " chosen_values

/-- The `[:4]` truncation applied to the multiselect result at
src/PurposeFinder.py line 180. -/
def selected_values (raw : List String) : List String := raw.take 4

/-- One step of a stable descending insertion sort on the score component:
the new element goes before the first element whose score it reaches, so an
element inserted into the sorted remainder of later elements goes before
later elements of equal score. -/
def insertDesc (x : String × ℚ) : List (String × ℚ) → List (String × ℚ)
  | [] => [x]
  | y :: ys => if y.2 ≤ x.2 then x :: y :: ys else y :: insertDesc x ys

/-- Stable descending sort on the score component, embedding
`sorted(trait_scores.items(), key=lambda x: x[1], reverse=True)` of
src/PurposeFinder.py line 103 (Python sorting is stable, and `reverse=True`
preserves the original order of elements with equal keys). -/
def sortDesc : List (String × ℚ) → List (String × ℚ)
  | [] => []
  | x :: xs => insertDesc x (sortDesc xs)

/-- `recommend_domains_from_scores` of src/PurposeFinder.py lines 101-108:
sort the traits by score descending (stable), take the first two trait names,
and extend an empty list with each of their configured domain lists. -/
def recommend_domains_from_scores (trait_scores : List (String × ℚ)) : List String :=
  let sorted_traits := sortDesc trait_scores
  let top_traits := (sorted_traits.take 2).map Prod.fst
  top_traits.foldl (fun domains t => domains ++ (lookupStr t DIMENSION_TO_DOMAINS).getD []) []

/-- The first two trait names of the stable descending sort: the names whose
domain lists `recommend_domains_from_scores` concatenates. -/
def top2 (trait_scores : List (String × ℚ)) : List String :=
  ((sortDesc trait_scores).take 2).map Prod.fst

/-- The rule-based fallback purpose sentence of src/PurposeFinder.py
lines 227-230: with a non-empty domain list the focus sentence over the first
domain lowercased, otherwise the generic exploration sentence. -/
def pf_fallback_purpose (domains : List String) (values_text : String) : String :=
  if domains ≠ [] then
    "Focus on " ++ lowerStr (domains.headD "") ++ " while honoring your values of "
      ++ values_text ++ "."
  else
    "Explore activities that combine your values (" ++ values_text ++ ") with your strengths."

/-- The trait-score dict of src/app.py: a dict with exactly the five Big Five
keys, embedded as a record with one rational score per trait. -/
structure Traits where
  Openness : ℚ
  Conscientiousness : ℚ
  Extraversion : ℚ
  Agreeableness : ℚ
  Neuroticism : ℚ

/-- `calculate_personality_score` of src/app.py lines 18-27: each trait is the
`numpy.mean` of its two question ratings, each missing key substituted by 3. -/
def calculate_personality_score (responses : Answers) : Traits :=
  { Openness := np_mean [(getRating responses "imagination" : ℚ),
                         (getRating responses "curiosity" : ℚ)]
    Conscientiousness := np_mean [(getRating responses "organized" : ℚ),
                                  (getRating responses "responsibility" : ℚ)]
    Extraversion := np_mean [(getRating responses "outgoing" : ℚ),
                             (getRating responses "energy" : ℚ)]
    Agreeableness := np_mean [(getRating responses "helpful" : ℚ),
                              (getRating responses "trust" : ℚ)]
    Neuroticism := np_mean [(getRating responses "stress" : ℚ),
                            (getRating responses "worry" : ℚ)] }

/-- `get_top_domains` of src/app.py lines 29-40: a fixed chain of threshold
tests in the order Extraversion, Openness, Conscientiousness, Agreeableness,
each strict against 3.5, with a default pair when none fires. -/
def get_top_domains (traits : Traits) : List String :=
  if traits.Extraversion > 3.5 then ["Leadership", "Social impact"]
  else if traits.Openness > 3.5 then ["Creativity", "Innovation"]
  else if traits.Conscientiousness > 3.5 then ["Achievement", "Structure"]
  else if traits.Agreeableness > 3.5 then ["Helping", "Community"]
  else ["Balance", "Stability"]

/-- The values text of src/app.py line 45: comma-joined values, or the
placeholder when the selection is empty. -/
def values_text_app (values : List String) : String :=
  if values = [] then "growth and balance" else String.intercalate ", " values

/-- The binding of the values multiselect at src/app.py line 114: the selection
is used as returned, with no truncation applied. -/
def app_selected_values (raw : List String) : List String := raw

/-- `generate_purpose_statement` of src/app.py lines 42-69 on its fallback path
(the external text-generation collaborator absent or failing): the focus
sentence over the first recommended domain lowercased, followed by the fixed
plan line. The `motive_text` of line 46 is only used in the collaborator
prompt and does not reach the fallback text. -/
def generate_purpose_statement (traits : Traits) (values : List String) : String :=
  let domains := get_top_domains traits
  let values_text := values_text_app values
  let purpose := "Focus on " ++ lowerStr (domains.headD "") ++ " while honoring your values of "
      ++ values_text ++ "."
  let plan := "Start small this week: journal daily and take one step toward something that feels meaningful."
  purpose ++ "\n\n" ++ plan

/-- The five trait names in the declared order of the trait table. -/
def traitName : Fin 5 → String
  | 0 => "Openness"
  | 1 => "Conscientiousness"
  | 2 => "Extraversion"
  | 3 => "Agreeableness"
  | 4 => "Neuroticism"

/-- A TraitScoreSet over the five fixed traits in declared order, as the
trait-score dict items list that `recommend_domains_from_scores` receives. -/
def mkTraitScores (f : Fin 5 → ℚ) : List (String × ℚ) :=
  [("Openness", f 0), ("Conscientiousness", f 1), ("Extraversion", f 2),
   ("Agreeableness", f 3), ("Neuroticism", f 4)]

/-- The score assignment with the scores of traits `i` and `j` exchanged. -/
def swapScores (f : Fin 5 → ℚ) (i j : Fin 5) : Fin 5 → ℚ :=
  fun k => if k = i then f j else if k = j then f i else f k

/-- Modelled from the Top-K policy wording of the spec (spec section 4.2): the
highest-ranked trait under "score descending, declared order on ties" is the
first element attaining the maximum score; ties between a trait and the best
of the later traits go to the earlier one. -/
def firstMax : List (String × ℚ) → Option (String × ℚ)
  | [] => none
  | x :: xs =>
    match firstMax xs with
    | none => some x
    | some m => some (if m.2 ≤ x.2 then x else m)

/-- Removal of the first entry equal to `z`, used to pass from the top-ranked
trait to the ranking of the remaining traits. -/
def eraseFirst (z : String × ℚ) : List (String × ℚ) → List (String × ℚ)
  | [] => []
  | y :: ys => if y = z then ys else y :: eraseFirst z ys

/-- Modelled from the Top-K policy wording of the spec (spec section 4.2):
rank the traits by score descending with the declared order as tie-break, take
the top two traits, and concatenate their configured domain lists in that
order, keeping duplicates. The rank-1 trait is the first trait attaining the
maximum score; the rank-2 trait is the first trait attaining the maximum score
among the remaining traits. -/
def recommend_domains_spec (trait_scores : List (String × ℚ)) : List String :=
  match firstMax trait_scores with
  | none => []
  | some m1 =>
    match firstMax (eraseFirst m1 trait_scores) with
    | none => (lookupStr m1.1 DIMENSION_TO_DOMAINS).getD []
    | some m2 =>
      ((lookupStr m1.1 DIMENSION_TO_DOMAINS).getD [])
        ++ ((lookupStr m2.1 DIMENSION_TO_DOMAINS).getD [])

/-- Modelled from the Threshold policy wording of the spec (spec section 4.2):
the fixed priority list of trait scores with their associated 2-item domain
lists, in the order the implementation consults them. -/
def threshold_priority (traits : Traits) : List (ℚ × List String) :=
  [(traits.Extraversion, ["Leadership", "Social impact"]),
   (traits.Openness, ["Creativity", "Innovation"]),
   (traits.Conscientiousness, ["Achievement", "Structure"]),
   (traits.Agreeableness, ["Helping", "Community"])]

/-- Modelled from the Threshold policy wording of the spec (spec section 4.2):
emit the domain list of the first entry whose score strictly exceeds 3.5, and
the default pair when none does. -/
def firstOverThreshold : List (ℚ × List String) → List String
  | [] => ["Balance", "Stability"]
  | (s, d) :: rest => if s > 3.5 then d else firstOverThreshold rest

/-! ### Helper lemmas about the stable descending sort -/

theorem mem_insertDesc {z x : String × ℚ} {l : List (String × ℚ)} :
    z ∈ insertDesc x l ↔ z = x ∨ z ∈ l := by
  induction l with
  | nil => simp [insertDesc]
  | cons y ys ih =>
    by_cases h : y.2 ≤ x.2
    · rw [insertDesc, if_pos h]
      simp
    · rw [insertDesc, if_neg h]
      simp only [List.mem_cons, ih]
      tauto

theorem length_insertDesc (x : String × ℚ) (l : List (String × ℚ)) :
    (insertDesc x l).length = l.length + 1 := by
  induction l with
  | nil => rfl
  | cons y ys ih =>
    by_cases h : y.2 ≤ x.2 <;> simp [insertDesc, h, ih]

theorem mem_sortDesc {z : String × ℚ} {l : List (String × ℚ)} :
    z ∈ sortDesc l ↔ z ∈ l := by
  induction l with
  | nil => simp [sortDesc]
  | cons x xs ih => simp [sortDesc, mem_insertDesc, ih]

theorem length_sortDesc (l : List (String × ℚ)) :
    (sortDesc l).length = l.length := by
  induction l with
  | nil => rfl
  | cons x xs ih => simp [sortDesc, length_insertDesc, ih]

/-- The sort invariant: scores are non-increasing along the list. -/
def DescOn (l : List (String × ℚ)) : Prop := l.Pairwise (fun a b => b.2 ≤ a.2)

theorem descOn_insertDesc (x : String × ℚ) {l : List (String × ℚ)} (h : DescOn l) :
    DescOn (insertDesc x l) := by
  induction l with
  | nil => simp [insertDesc, DescOn]
  | cons y ys ih =>
    rcases List.pairwise_cons.mp h with ⟨h1, h2⟩
    by_cases hc : y.2 ≤ x.2
    · rw [DescOn, insertDesc, if_pos hc, List.pairwise_cons]
      refine ⟨fun b hb => ?_, h⟩
      rcases List.mem_cons.mp hb with rfl | hb2
      · exact hc
      · exact le_trans (h1 b hb2) hc
    · rw [DescOn, insertDesc, if_neg hc, List.pairwise_cons]
      refine ⟨fun b hb => ?_, ih h2⟩
      rcases mem_insertDesc.mp hb with rfl | hb2
      · exact le_of_not_le hc
      · exact h1 b hb2

theorem descOn_sortDesc (l : List (String × ℚ)) : DescOn (sortDesc l) := by
  induction l with
  | nil => simp [sortDesc, DescOn]
  | cons x xs ih => exact descOn_insertDesc x ih

theorem eraseFirst_cons_self (z : String × ℚ) (t : List (String × ℚ)) :
    eraseFirst z (z :: t) = t := by
  simp [eraseFirst]

theorem eraseFirst_cons_ne {y z : String × ℚ} (h : y ≠ z) (t : List (String × ℚ)) :
    eraseFirst z (y :: t) = y :: eraseFirst z t := by
  simp [eraseFirst, h]

theorem eraseFirst_sublist (z : String × ℚ) (l : List (String × ℚ)) :
    List.Sublist (eraseFirst z l) l := by
  induction l with
  | nil => simp [eraseFirst]
  | cons y ys ih =>
    by_cases h : y = z
    · rw [h, eraseFirst_cons_self]
      exact List.sublist_cons_self z ys
    · rw [eraseFirst_cons_ne h]
      exact ih.cons₂ y

theorem eraseFirst_insertDesc_self {x : String × ℚ} {m : List (String × ℚ)}
    (h : x ∉ m) : eraseFirst x (insertDesc x m) = m := by
  induction m with
  | nil => simp [insertDesc, eraseFirst]
  | cons y ys ih =>
    have hyx : y ≠ x := fun e => h (by simp [e])
    by_cases hc : y.2 ≤ x.2
    · rw [insertDesc, if_pos hc, eraseFirst_cons_self]
    · rw [insertDesc, if_neg hc, eraseFirst_cons_ne hyx,
        ih (fun hh => h (by simp [hh]))]

theorem insertDesc_cons_le {x y : String × ℚ} (ys : List (String × ℚ))
    (h : y.2 ≤ x.2) : insertDesc x (y :: ys) = x :: y :: ys := by
  rw [insertDesc, if_pos h]

theorem insertDesc_cons_gt {x y : String × ℚ} (ys : List (String × ℚ))
    (h : ¬ y.2 ≤ x.2) : insertDesc x (y :: ys) = y :: insertDesc x ys := by
  rw [insertDesc, if_neg h]

/-- On a sorted list, erasing one element and inserting another commute. -/
theorem eraseFirst_insertDesc_ne {x z : String × ℚ} {m : List (String × ℚ)}
    (hxz : x ≠ z) (hm : DescOn m) :
    eraseFirst z (insertDesc x m) = insertDesc x (eraseFirst z m) := by
  induction m with
  | nil => simp [insertDesc, eraseFirst, hxz]
  | cons y ys ih =>
    rcases List.pairwise_cons.mp hm with ⟨h1, h2⟩
    by_cases hyz : y = z
    · subst hyz
      by_cases hc : y.2 ≤ x.2
      · rw [insertDesc_cons_le _ hc, eraseFirst_cons_ne hxz, eraseFirst_cons_self]
        cases ys with
        | nil => rfl
        | cons v vs => rw [insertDesc_cons_le _ (le_trans (h1 v (by simp)) hc)]
      · rw [insertDesc_cons_gt _ hc, eraseFirst_cons_self, eraseFirst_cons_self]
    · by_cases hc : y.2 ≤ x.2
      · rw [insertDesc_cons_le _ hc, eraseFirst_cons_ne hxz, eraseFirst_cons_ne hyz,
          insertDesc_cons_le _ hc]
      · rw [insertDesc_cons_gt _ hc, eraseFirst_cons_ne hyz, ih h2,
          eraseFirst_cons_ne hyz, insertDesc_cons_gt _ hc]

/-- The stable sort commutes with erasing an entry of a duplicate-free list:
this is the stability fact the swap arguments rest on. -/
theorem sortDesc_eraseFirst {l : List (String × ℚ)} (z : String × ℚ) (h : l.Nodup) :
    sortDesc (eraseFirst z l) = eraseFirst z (sortDesc l) := by
  induction l with
  | nil => rfl
  | cons w ws ih =>
    rcases List.nodup_cons.mp h with ⟨hw, hws⟩
    by_cases hwz : w = z
    · subst hwz
      rw [eraseFirst_cons_self]
      show sortDesc ws = eraseFirst w (insertDesc w (sortDesc ws))
      rw [eraseFirst_insertDesc_self (fun hh => hw (mem_sortDesc.mp hh))]
    · rw [eraseFirst_cons_ne hwz]
      show insertDesc w (sortDesc (eraseFirst z ws)) = eraseFirst z (insertDesc w (sortDesc ws))
      rw [ih hws, eraseFirst_insertDesc_ne hwz (descOn_sortDesc ws)]

/-- Erasing an entry that is not among the first two leaves the first two as
they are. -/
theorem take2_eraseFirst {x : String × ℚ} {m : List (String × ℚ)}
    (h : x ∉ m.take 2) : (eraseFirst x m).take 2 = m.take 2 := by
  match m with
  | [] => rfl
  | [u] =>
    have hu : u ≠ x := fun e => h (by simp [e])
    rw [eraseFirst_cons_ne hu]
    rfl
  | u :: v :: r =>
    have hu : u ≠ x := fun e => h (by simp [e])
    have hv : v ≠ x := fun e => h (by simp [e])
    rw [eraseFirst_cons_ne hu, eraseFirst_cons_ne hv]
    rfl

theorem head?_insertDesc (x : String × ℚ) (m : List (String × ℚ)) :
    (insertDesc x m).head? =
      some (match m with | [] => x | y :: _ => if y.2 ≤ x.2 then x else y) := by
  cases m with
  | nil => rfl
  | cons y ys => by_cases h : y.2 ≤ x.2 <;> simp [insertDesc, h]

/-- The head of the stable descending sort is the first entry attaining the
maximum score. -/
theorem head?_sortDesc (l : List (String × ℚ)) :
    (sortDesc l).head? = firstMax l := by
  induction l with
  | nil => rfl
  | cons x xs ih =>
    show (insertDesc x (sortDesc xs)).head? = _
    rw [head?_insertDesc]
    cases hs : sortDesc xs with
    | nil =>
      have h0 : firstMax xs = none := by rw [← ih, hs]; rfl
      simp [firstMax, h0]
    | cons y ys =>
      have h0 : firstMax xs = some y := by rw [← ih, hs]; rfl
      simp [firstMax, h0]

theorem firstMax_eq_none_iff {l : List (String × ℚ)} :
    firstMax l = none ↔ l = [] := by
  cases l with
  | nil => simp [firstMax]
  | cons x xs =>
    cases h : firstMax xs <;> simp [firstMax, h]

theorem sortDesc_cons_of_firstMax {l : List (String × ℚ)} {m : String × ℚ}
    (hn : l.Nodup) (h : firstMax l = some m) :
    sortDesc l = m :: sortDesc (eraseFirst m l) := by
  have h1 : (sortDesc l).head? = some m := by rw [head?_sortDesc, h]
  obtain ⟨t, ht⟩ : ∃ t, sortDesc l = m :: t := by
    cases hs : sortDesc l with
    | nil => rw [hs] at h1; exact absurd h1 (by simp)
    | cons a t =>
      rw [hs] at h1
      have ha : a = m := by simpa using h1
      exact ⟨t, by rw [ha]⟩
  rw [sortDesc_eraseFirst m hn, ht, eraseFirst_cons_self]

/-! ### The swap machinery for the Top-K policy -/

theorem recommend_congr {l l' : List (String × ℚ)}
    (h : (sortDesc l).take 2 = (sortDesc l').take 2) :
    recommend_domains_from_scores l = recommend_domains_from_scores l' := by
  simp only [recommend_domains_from_scores]
  rw [h]

/-- Erasing two entries that are outside the sorted first two does not move
the sorted first two. -/
theorem take2_sortDesc_erase2 {l : List (String × ℚ)} (hn : l.Nodup)
    {p q : String × ℚ} (hp : p ∉ (sortDesc l).take 2) (hq : q ∉ (sortDesc l).take 2) :
    (sortDesc (eraseFirst q (eraseFirst p l))).take 2 = (sortDesc l).take 2 := by
  have hn2 : (eraseFirst p l).Nodup := (eraseFirst_sublist p l).nodup hn
  rw [sortDesc_eraseFirst q hn2, sortDesc_eraseFirst p hn]
  have h1 : (eraseFirst p (sortDesc l)).take 2 = (sortDesc l).take 2 := take2_eraseFirst hp
  rw [take2_eraseFirst (h1 ▸ hq), h1]

theorem pair_not_mem_take2 {l : List (String × ℚ)} {p : String × ℚ}
    (h : p.1 ∉ top2 l) : p ∉ (sortDesc l).take 2 := by
  intro hp
  exact h (List.mem_map_of_mem Prod.fst hp)

theorem mkTraitScores_nodup (f : Fin 5 → ℚ) : (mkTraitScores f).Nodup := by
  simp [mkTraitScores]

theorem swapScores_self (f : Fin 5 → ℚ) (i : Fin 5) : swapScores f i i = f := by
  funext k
  by_cases h : k = i <;> simp [swapScores, h]

/-- Erasing the two swapped entries from the swapped score list and erasing
the two original entries from the original score list leave the same list:
the three untouched traits with their untouched scores, in declared order. -/
theorem erase2_swap (f : Fin 5 → ℚ) (i j : Fin 5) :
    eraseFirst (traitName j, swapScores f i j j)
        (eraseFirst (traitName i, swapScores f i j i) (mkTraitScores (swapScores f i j)))
      = eraseFirst (traitName j, f j)
        (eraseFirst (traitName i, f i) (mkTraitScores f)) := by
  fin_cases i <;> fin_cases j <;>
    simp [mkTraitScores, swapScores, traitName, eraseFirst]

/-! ### Scoring helpers -/

theorem lookupStr_mem {β : Type} {k : String} {v : β} :
    ∀ {l : List (String × β)}, lookupStr k l = some v → (k, v) ∈ l := by
  intro l
  induction l with
  | nil => intro h; simp [lookupStr] at h
  | cons p ps ih =>
    intro h
    obtain ⟨p1, p2⟩ := p
    rw [lookupStr] at h
    by_cases hk : p1 = k
    · rw [if_pos hk] at h
      injection h with h
      subst hk
      subst h
      exact List.mem_cons_self _ _
    · rw [if_neg hk] at h
      exact List.mem_cons_of_mem _ (ih h)

theorem getRating_bounds {rs : Answers} (h : ∀ p ∈ rs, 1 ≤ p.2 ∧ p.2 ≤ 5)
    (q : String) : 1 ≤ getRating rs q ∧ getRating rs q ≤ 5 := by
  rw [getRating]
  cases hl : lookupStr q rs with
  | none => simp
  | some v => exact h (q, v) (lookupStr_mem hl)

/-- The mean of a non-empty list of values, each between 1 and 5, is between
1 and 5. -/
theorem np_mean_bounds {l : List ℚ} (hne : l ≠ [])
    (h : ∀ x ∈ l, 1 ≤ x ∧ x ≤ 5) : 1 ≤ np_mean l ∧ np_mean l ≤ 5 := by
  have hpos : 0 < (l.length : ℚ) := by
    have := List.length_pos.mpr hne
    exact_mod_cast this
  have hup : l.sum ≤ l.length • (5 : ℚ) :=
    List.sum_le_card_nsmul l 5 fun x hx => (h x hx).2
  have hlo : l.length • (1 : ℚ) ≤ l.sum :=
    List.card_nsmul_le_sum l 1 fun x hx => (h x hx).1
  rw [nsmul_eq_mul] at hup hlo
  constructor
  · rw [np_mean, le_div_iff₀ hpos]
    linarith
  · rw [np_mean, div_le_iff₀ hpos]
    linarith

theorem np_mean_pair (a b : ℚ) : np_mean [a, b] = (a + b) / 2 := by
  simp [np_mean]

theorem np_mean_pair_bounds {a b : ℤ} (ha : 1 ≤ a ∧ a ≤ 5) (hb : 1 ≤ b ∧ b ≤ 5) :
    1 ≤ np_mean [(a : ℚ), (b : ℚ)] ∧ np_mean [(a : ℚ), (b : ℚ)] ≤ 5 := by
  refine np_mean_bounds (by simp) ?_
  intro x hx
  rcases List.mem_cons.mp hx with rfl | hx2
  · exact ⟨by exact_mod_cast ha.1, by exact_mod_cast ha.2⟩
  · rcases List.mem_cons.mp hx2 with rfl | hx3
    · exact ⟨by exact_mod_cast hb.1, by exact_mod_cast hb.2⟩
    · simp at hx3

/-- All five trait scores of an src/app.py trait dict lie in the 1 to 5 band. -/
def traitsInRange (t : Traits) : Prop :=
  (1 ≤ t.Openness ∧ t.Openness ≤ 5) ∧
  (1 ≤ t.Conscientiousness ∧ t.Conscientiousness ≤ 5) ∧
  (1 ≤ t.Extraversion ∧ t.Extraversion ≤ 5) ∧
  (1 ≤ t.Agreeableness ∧ t.Agreeableness ≤ 5) ∧
  (1 ≤ t.Neuroticism ∧ t.Neuroticism ≤ 5)

/-! ### The claims -/

/-- C1: the Scoring Engine assigns each trait the unweighted arithmetic mean
of its two configured question ratings, substituting 3 for every missing
question; it is total over any Answer mapping (both scoring functions are
total Lean functions), and on the empty mapping every trait scores exactly 3,
in both variants. -/
theorem C1_scoring_mean_and_empty :
    (∀ rs : Answers, score_likert_responses rs =
      [("Openness",
         ((getRating rs "I enjoy trying new things and new experiences." : ℚ)
           + (getRating rs "I prefer variety over routine." : ℚ)) / 2),
       ("Conscientiousness",
         ((getRating rs "I pay attention to details and like to be organized." : ℚ)
           + (getRating rs "I finish tasks I start." : ℚ)) / 2),
       ("Extraversion",
         ((getRating rs "I feel energized spending time with other people." : ℚ)
           + (getRating rs "I enjoy being the center of attention sometimes." : ℚ)) / 2),
       ("Agreeableness",
         ((getRating rs agreeQ1 : ℚ)
           + (getRating rs "I prefer cooperation over competition." : ℚ)) / 2),
       ("Neuroticism",
         ((getRating rs "I sometimes feel anxious or stressed." : ℚ)
           + (getRating rs "I get upset easily by small things." : ℚ)) / 2)]) ∧
    score_likert_responses [] =
      [("Openness", 3), ("Conscientiousness", 3), ("Extraversion", 3),
       ("Agreeableness", 3), ("Neuroticism", 3)] ∧
    (∀ rs : Answers, calculate_personality_score rs =
      ⟨((getRating rs "imagination" : ℚ) + (getRating rs "curiosity" : ℚ)) / 2,
       ((getRating rs "organized" : ℚ) + (getRating rs "responsibility" : ℚ)) / 2,
       ((getRating rs "outgoing" : ℚ) + (getRating rs "energy" : ℚ)) / 2,
       ((getRating rs "helpful" : ℚ) + (getRating rs "trust" : ℚ)) / 2,
       ((getRating rs "stress" : ℚ) + (getRating rs "worry" : ℚ)) / 2⟩) ∧
    calculate_personality_score [] = ⟨3, 3, 3, 3, 3⟩ := by
  have hmean : ∀ rs : Answers, score_likert_responses rs =
      BIG5_ITEMS.map fun ti =>
        (ti.1, np_mean (ti.2.map fun q => ((getRating rs q : ℤ) : ℚ))) :=
    fun _ => rfl
  have hempty : ∀ q, getRating [] q = 3 := fun _ => rfl
  refine ⟨fun rs => ?_, ?_, fun rs => ?_, ?_⟩
  · rw [hmean]
    simp [BIG5_ITEMS, np_mean_pair]
  · rw [hmean]
    simp [BIG5_ITEMS, np_mean_pair, hempty]
  · rw [calculate_personality_score]
    simp [np_mean_pair]
  · rw [calculate_personality_score]
    simp [np_mean_pair, hempty]

/-- C4: with every present rating an integer between 1 and 5, every trait
score lies in the band 1 to 5, in both scoring variants. -/
theorem C4_scores_in_range (rs : Answers) (h : ∀ p ∈ rs, 1 ≤ p.2 ∧ p.2 ≤ 5) :
    (∀ p ∈ score_likert_responses rs, 1 ≤ p.2 ∧ p.2 ≤ 5) ∧
    traitsInRange (calculate_personality_score rs) := by
  constructor
  · intro p hp
    simp only [score_likert_responses, List.mem_map] at hp
    obtain ⟨ti, hti, rfl⟩ := hp
    have hne : ti.2 ≠ [] := by fin_cases hti <;> simp
    refine np_mean_bounds (by simpa using hne) ?_
    intro x hx
    simp only [List.mem_map] at hx
    obtain ⟨q, _, rfl⟩ := hx
    have := getRating_bounds h q
    exact ⟨by exact_mod_cast this.1, by exact_mod_cast this.2⟩
  · exact ⟨np_mean_pair_bounds (getRating_bounds h _) (getRating_bounds h _),
      np_mean_pair_bounds (getRating_bounds h _) (getRating_bounds h _),
      np_mean_pair_bounds (getRating_bounds h _) (getRating_bounds h _),
      np_mean_pair_bounds (getRating_bounds h _) (getRating_bounds h _),
      np_mean_pair_bounds (getRating_bounds h _) (getRating_bounds h _)⟩

/-- Witness for C4 at a concrete Answer mapping. -/
theorem C4_scores_in_range_witness :
    traitsInRange (calculate_personality_score [("stress", 5), ("outgoing", 2)]) :=
  (C4_scores_in_range [("stress", 5), ("outgoing", 2)] (by decide)).2

/-- C3: the threshold Recommendation Selector evaluates the fixed priority
order Extraversion, Openness, Conscientiousness, Agreeableness and returns the
2-item domain list of the first trait whose score strictly exceeds 3.5; when
no trait of that priority order exceeds 3.5 it returns the default pair, the
result is always exactly one of the five fixed 2-item lists (never a blend),
and the all-3.0 TraitScoreSet yields the default pair. -/
theorem C3_threshold_policy :
    (∀ t : Traits, get_top_domains t = firstOverThreshold (threshold_priority t)) ∧
    (∀ t : Traits, t.Extraversion ≤ 3.5 → t.Openness ≤ 3.5 →
        t.Conscientiousness ≤ 3.5 → t.Agreeableness ≤ 3.5 →
        get_top_domains t = ["Balance", "Stability"]) ∧
    (∀ t : Traits, (get_top_domains t).length = 2 ∧
        get_top_domains t ∈ [["Leadership", "Social impact"], ["Creativity", "Innovation"],
          ["Achievement", "Structure"], ["Helping", "Community"], ["Balance", "Stability"]]) ∧
    get_top_domains ⟨3, 3, 3, 3, 3⟩ = ["Balance", "Stability"] := by
  refine ⟨fun t => ?_, fun t h1 h2 h3 h4 => ?_, fun t => ?_, ?_⟩
  · rfl
  · rw [get_top_domains, if_neg (not_lt.mpr h1), if_neg (not_lt.mpr h2),
      if_neg (not_lt.mpr h3), if_neg (not_lt.mpr h4)]
  · rw [get_top_domains]
    split_ifs <;> simp
  · norm_num [get_top_domains]

/-- Witness for C3: a TraitScoreSet with every score below the threshold gets
the default pair. -/
theorem C3_threshold_policy_witness :
    get_top_domains ⟨1, 1, 1, 1, 1⟩ = ["Balance", "Stability"] :=
  C3_threshold_policy.2.1 ⟨1, 1, 1, 1, 1⟩ (by norm_num) (by norm_num) (by norm_num)
    (by norm_num)

/-- C10: the threshold selector never reads the Neuroticism score: two
TraitScoreSets agreeing on the four consulted traits get the same DomainList,
and a TraitScoreSet whose only above-threshold trait is Neuroticism gets the
default pair. -/
theorem C10_threshold_ignores_neuroticism :
    (∀ t₁ t₂ : Traits, t₁.Openness = t₂.Openness →
        t₁.Conscientiousness = t₂.Conscientiousness →
        t₁.Extraversion = t₂.Extraversion →
        t₁.Agreeableness = t₂.Agreeableness →
        get_top_domains t₁ = get_top_domains t₂) ∧
    (∀ t : Traits, 3.5 < t.Neuroticism → t.Openness ≤ 3.5 →
        t.Conscientiousness ≤ 3.5 → t.Extraversion ≤ 3.5 → t.Agreeableness ≤ 3.5 →
        get_top_domains t = ["Balance", "Stability"]) := by
  constructor
  · intro t₁ t₂ h1 h2 h3 h4
    rw [get_top_domains, get_top_domains, h1, h2, h3, h4]
  · intro t hn h1 h2 h3 h4
    rw [get_top_domains, if_neg (not_lt.mpr h3), if_neg (not_lt.mpr h1),
      if_neg (not_lt.mpr h2), if_neg (not_lt.mpr h4)]

/-- Witness for C10: Neuroticism 5 with the other traits at 3 still yields
the default pair. -/
theorem C10_threshold_ignores_neuroticism_witness :
    get_top_domains ⟨3, 3, 3, 3, 5⟩ = ["Balance", "Stability"] :=
  C10_threshold_ignores_neuroticism.2 ⟨3, 3, 3, 3, 5⟩ (by norm_num) (by norm_num)
    (by norm_num) (by norm_num) (by norm_num)

/-- C5: the fallback purpose-statement generator is total (a total Lean
function) and returns a non-empty string on every input, including the empty
value selection and the empty domain list; with a non-empty DomainList and a
non-empty ValueSelection the sentence is the focus template over the first
domain lowercased and the comma-joined values; with an empty DomainList the
generic exploration sentence is produced instead; the src/app.py variant is
also total and non-empty on every input. -/
theorem C5_fallback_generator :
    (∀ (domains : List String) (values_text : String),
        pf_fallback_purpose domains values_text ≠ "") ∧
    (∀ (domains vs : List String), domains ≠ [] → vs ≠ [] →
        pf_fallback_purpose domains (values_summary vs) =
          "Focus on " ++ lowerStr (domains.headD "") ++ " while honoring your values of "
            ++ String.intercalate ", " vs ++ ".") ∧
    (∀ values_text : String,
        pf_fallback_purpose [] values_text =
          "Explore activities that combine your values (" ++ values_text
            ++ ") with your strengths.") ∧
    (∀ (t : Traits) (values : List String), generate_purpose_statement t values ≠ "") := by
  refine ⟨?_, ?_, ?_, ?_⟩
  · intro domains values_text h
    have h2 := congrArg String.data h
    by_cases hd : domains = []
    · rw [pf_fallback_purpose, if_neg (by simp [hd])] at h2
      simp [String.data_append] at h2
    · rw [pf_fallback_purpose, if_pos hd] at h2
      simp [String.data_append] at h2
  · intro domains vs hd hvs
    rw [pf_fallback_purpose, if_pos hd, values_summary, if_neg hvs]
  · intro values_text
    rw [pf_fallback_purpose, if_neg (by simp)]
  · intro t values h
    have h2 := congrArg String.data h
    rw [generate_purpose_statement] at h2
    simp [String.data_append] at h2

/-- Witness for C5 at a concrete domain list and value selection. -/
theorem C5_fallback_generator_witness :
    pf_fallback_purpose ["Art"] (values_summary ["Family"]) =
      "Focus on art while honoring your values of Family." := by
  have h := C5_fallback_generator.2.1 ["Art"] ["Family"] (by simp) (by simp)
  rw [h]
  decide

/-- C7 counterexample: in the src/app.py variant (cap 5 per its label), a
selection of six values is not truncated: the bound selection is not the
5-element truncation, and the sixth value changes the produced purpose
statement, which truncation to 5 would forbid. -/
theorem C7_counterexample :
    app_selected_values ["Growth", "Family", "Independence", "Creativity", "Security",
        "Helping Others"] ≠
      (["Growth", "Family", "Independence", "Creativity", "Security",
        "Helping Others"].take 5) ∧
    generate_purpose_statement ⟨3, 3, 3, 3, 3⟩
        ["Growth", "Family", "Independence", "Creativity", "Security", "Helping Others"] ≠
      generate_purpose_statement ⟨3, 3, 3, 3, 3⟩
        (["Growth", "Family", "Independence", "Creativity", "Security",
          "Helping Others"].take 5) := by
  constructor
  · decide
  · have hd : get_top_domains ⟨3, 3, 3, 3, 3⟩ = ["Balance", "Stability"] := by
      norm_num [get_top_domains]
    intro h
    rw [generate_purpose_statement, generate_purpose_statement, hd] at h
    revert h
    decide

/-- C7 amended: the src/PurposeFinder.py variant truncates the selection to
its first 4 entries, order preserved and without error; the src/app.py
variant applies no truncation and uses the selection as returned. -/
theorem C7_amended_truncation :
    (∀ raw : List String, selected_values raw = raw.take 4 ∧
        (selected_values raw).length = min 4 raw.length ∧
        selected_values raw ++ raw.drop 4 = raw) ∧
    (∀ raw : List String, app_selected_values raw = raw) := by
  refine ⟨fun raw => ⟨rfl, ?_, ?_⟩, fun raw => rfl⟩
  · simp [selected_values]
  · simp [selected_values]

/-- C8: on the empty value selection both variants produce their fixed
non-empty placeholder text: the explicit no-strong-values sentence in
src/PurposeFinder.py and the generic pair of stand-in values in src/app.py;
neither is the empty string. -/
theorem C8_empty_values_placeholder :
    values_summary [] = "No strong values selected." ∧
    values_text_app [] = "growth and balance" ∧
    values_summary [] ≠ "" ∧ values_text_app [] ≠ "" := by
  exact ⟨rfl, rfl, by decide, by decide⟩

/-- C2: the top-K Recommendation Selector agrees, on every trait-score list
with distinct trait names, with the spec-side Top-K policy: rank by score
descending with the declared order as stable tie-break, take the top two
traits, and concatenate their configured domain lists in that order without
deduplication. -/
theorem C2_topK_matches_spec (l : List (String × ℚ)) (hn : (l.map Prod.fst).Nodup) :
    recommend_domains_from_scores l = recommend_domains_spec l := by
  have hnp : l.Nodup := hn.of_map
  cases h1 : firstMax l with
  | none =>
    rw [firstMax_eq_none_iff.mp h1]
    rfl
  | some m1 =>
    have e1 : sortDesc l = m1 :: sortDesc (eraseFirst m1 l) :=
      sortDesc_cons_of_firstMax hnp h1
    have hn1 : (eraseFirst m1 l).Nodup := (eraseFirst_sublist m1 l).nodup hnp
    cases h2 : firstMax (eraseFirst m1 l) with
    | none =>
      have e0 : eraseFirst m1 l = [] := firstMax_eq_none_iff.mp h2
      rw [e0] at e1
      simp only [recommend_domains_from_scores, recommend_domains_spec, h1, h2, e1, sortDesc]
      simp
    | some m2 =>
      have e2 : sortDesc (eraseFirst m1 l)
          = m2 :: sortDesc (eraseFirst m2 (eraseFirst m1 l)) :=
        sortDesc_cons_of_firstMax hn1 h2
      simp only [recommend_domains_from_scores, recommend_domains_spec, h1, h2, e1, e2]
      simp

/-- Witness for C2 at a concrete TraitScoreSet with a tie: Extraversion leads,
and the Openness before Conscientiousness tie is broken by declared order. -/
theorem C2_topK_matches_spec_witness :
    recommend_domains_from_scores
        [("Openness", 4), ("Conscientiousness", 4), ("Extraversion", 5),
         ("Agreeableness", 2), ("Neuroticism", 1)] =
      recommend_domains_spec
        [("Openness", 4), ("Conscientiousness", 4), ("Extraversion", 5),
         ("Agreeableness", 2), ("Neuroticism", 1)] :=
  C2_topK_matches_spec _ (by simp)

/-- C6: under the top-K policy, swapping the scores of two traits that are
both outside the top 2, the swap not crossing the top-2 boundary (neither
trait is among the top 2 before or after the swap), leaves the returned
DomainList unchanged. -/
theorem C6_swap_outside_top2 (f : Fin 5 → ℚ) (i j : Fin 5)
    (hi : traitName i ∉ top2 (mkTraitScores f))
    (hj : traitName j ∉ top2 (mkTraitScores f))
    (hi2 : traitName i ∉ top2 (mkTraitScores (swapScores f i j)))
    (hj2 : traitName j ∉ top2 (mkTraitScores (swapScores f i j))) :
    recommend_domains_from_scores (mkTraitScores (swapScores f i j)) =
      recommend_domains_from_scores (mkTraitScores f) := by
  apply recommend_congr
  have k1 := take2_sortDesc_erase2 (mkTraitScores_nodup (swapScores f i j))
      (pair_not_mem_take2 (p := (traitName i, swapScores f i j i)) hi2)
      (pair_not_mem_take2 (p := (traitName j, swapScores f i j j)) hj2)
  have k2 := take2_sortDesc_erase2 (mkTraitScores_nodup f)
      (pair_not_mem_take2 (p := (traitName i, f i)) hi)
      (pair_not_mem_take2 (p := (traitName j, f j)) hj)
  rw [← k1, ← k2, erase2_swap]

/-- The concrete score assignment of the C6 witness. -/
def witnessScores : Fin 5 → ℚ
  | 0 => 5
  | 1 => 4
  | 2 => 3
  | 3 => 2
  | 4 => 1

/-- Witness for C6: swapping the Agreeableness and Neuroticism scores of a
TraitScoreSet whose top 2 are Openness and Conscientiousness leaves the
DomainList unchanged. -/
theorem C6_swap_outside_top2_witness :
    recommend_domains_from_scores (mkTraitScores (swapScores witnessScores 3 4)) =
      recommend_domains_from_scores (mkTraitScores witnessScores) := by
  have e1 : mkTraitScores witnessScores =
      [("Openness", 5), ("Conscientiousness", 4), ("Extraversion", 3),
       ("Agreeableness", 2), ("Neuroticism", 1)] := by decide
  have e2 : mkTraitScores (swapScores witnessScores 3 4) =
      [("Openness", 5), ("Conscientiousness", 4), ("Extraversion", 3),
       ("Agreeableness", 1), ("Neuroticism", 2)] := by decide
  refine C6_swap_outside_top2 witnessScores 3 4 ?_ ?_ ?_ ?_
  · show "Agreeableness" ∉ top2 (mkTraitScores witnessScores)
    rw [top2, e1]
    norm_num [sortDesc, insertDesc]
    decide
  · show "Neuroticism" ∉ top2 (mkTraitScores witnessScores)
    rw [top2, e1]
    norm_num [sortDesc, insertDesc]
    decide
  · show "Agreeableness" ∉ top2 (mkTraitScores (swapScores witnessScores 3 4))
    rw [top2, e2]
    norm_num [sortDesc, insertDesc]
    decide
  · show "Neuroticism" ∉ top2 (mkTraitScores (swapScores witnessScores 3 4))
    rw [top2, e2]
    norm_num [sortDesc, insertDesc]
    decide

/-- C9: on every TraitScoreSet over the five fixed traits the top-K selector
returns exactly 4 domain entries and the threshold selector exactly 2, both
non-empty, so applied to a selector output the fallback generator always
takes its focus branch and the exploration branch is unreachable. -/
theorem C9_selector_outputs_nonempty :
    (∀ f : Fin 5 → ℚ,
        (recommend_domains_from_scores (mkTraitScores f)).length = 4 ∧
        recommend_domains_from_scores (mkTraitScores f) ≠ [] ∧
        ∀ vt : String,
          pf_fallback_purpose (recommend_domains_from_scores (mkTraitScores f)) vt =
            "Focus on "
              ++ lowerStr ((recommend_domains_from_scores (mkTraitScores f)).headD "")
              ++ " while honoring your values of " ++ vt ++ ".") ∧
    (∀ t : Traits, (get_top_domains t).length = 2 ∧ get_top_domains t ≠ []) := by
  have hlen : ∀ f : Fin 5 → ℚ,
      (recommend_domains_from_scores (mkTraitScores f)).length = 4 := by
    intro f
    have h5 : (sortDesc (mkTraitScores f)).length = 5 := by
      rw [length_sortDesc]
      rfl
    have ht : ((sortDesc (mkTraitScores f)).take 2).length = 2 := by
      rw [List.length_take, h5]
      decide
    obtain ⟨a, b, hab⟩ := List.length_eq_two.mp ht
    have ha : a ∈ mkTraitScores f := by
      have hm : a ∈ (sortDesc (mkTraitScores f)).take 2 := by
        rw [hab]
        simp
      exact mem_sortDesc.mp (List.take_subset 2 _ hm)
    have hb : b ∈ mkTraitScores f := by
      have hm : b ∈ (sortDesc (mkTraitScores f)).take 2 := by
        rw [hab]
        simp
      exact mem_sortDesc.mp (List.take_subset 2 _ hm)
    have hda : ((lookupStr a.1 DIMENSION_TO_DOMAINS).getD []).length = 2 := by
      simp only [mkTraitScores, List.mem_cons, List.not_mem_nil, or_false] at ha
      rcases ha with rfl | rfl | rfl | rfl | rfl <;> rfl
    have hdb : ((lookupStr b.1 DIMENSION_TO_DOMAINS).getD []).length = 2 := by
      simp only [mkTraitScores, List.mem_cons, List.not_mem_nil, or_false] at hb
      rcases hb with rfl | rfl | rfl | rfl | rfl <;> rfl
    simp only [recommend_domains_from_scores, hab]
    simp [hda, hdb]
  refine ⟨fun f => ⟨hlen f, ?_, ?_⟩, fun t => ?_⟩
  · intro h
    have h4 := hlen f
    rw [h] at h4
    simp at h4
  · intro vt
    have hne : recommend_domains_from_scores (mkTraitScores f) ≠ [] := by
      intro h
      have h4 := hlen f
      rw [h] at h4
      simp at h4
    rw [pf_fallback_purpose, if_pos hne]
  · rw [get_top_domains]
    constructor
    · split_ifs <;> rfl
    · split_ifs <;> simp

/-- The score assignment showing that C6 needs its boundary condition: with
scores 3, 4, 4, 4, 3 the top 2 are Conscientiousness and Extraversion. -/
def boundaryScores : Fin 5 → ℚ
  | 0 => 3
  | 1 => 4
  | 2 => 4
  | 3 => 4
  | 4 => 3

/-- Being outside the top 2 before the swap alone does not keep the DomainList
fixed: Openness and Agreeableness are both outside the top 2 of
`boundaryScores`, yet swapping their scores moves the score 4 onto Openness,
which then wins the tie against Conscientiousness by declared order, and the
DomainList changes. This is why the boundary condition of C6 also constrains
the swapped score set. -/
theorem swap_can_cross_top2_boundary :
    "Openness" ∉ top2 (mkTraitScores boundaryScores) ∧
    "Agreeableness" ∉ top2 (mkTraitScores boundaryScores) ∧
    recommend_domains_from_scores (mkTraitScores (swapScores boundaryScores 0 3)) ≠
      recommend_domains_from_scores (mkTraitScores boundaryScores) := by
  have e1 : mkTraitScores boundaryScores =
      [("Openness", 3), ("Conscientiousness", 4), ("Extraversion", 4),
       ("Agreeableness", 4), ("Neuroticism", 3)] := by decide
  have e2 : mkTraitScores (swapScores boundaryScores 0 3) =
      [("Openness", 4), ("Conscientiousness", 4), ("Extraversion", 4),
       ("Agreeableness", 3), ("Neuroticism", 3)] := by decide
  have s1 : (sortDesc (mkTraitScores boundaryScores)).take 2 =
      [("Conscientiousness", 4), ("Extraversion", 4)] := by
    rw [e1]
    norm_num [sortDesc, insertDesc]
  have s2 : (sortDesc (mkTraitScores (swapScores boundaryScores 0 3))).take 2 =
      [("Openness", 4), ("Conscientiousness", 4)] := by
    rw [e2]
    norm_num [sortDesc, insertDesc]
  refine ⟨?_, ?_, ?_⟩
  · rw [top2, s1]
    decide
  · rw [top2, s1]
    decide
  · simp only [recommend_domains_from_scores, s1, s2]
    decide

end PurposeFinder
